import Mathlib

/-!
# Google identity-provider resource adapter

A shallow embedding of `fusionauth/resource_fusionauth_idp_google.go`.

Conventions of the embedding

* Go strings are Lean `String`s (configuration strings are valid Unicode text).
* A Go `error` is represented by its message (`GoError`).
* A Go `map[string]V` is a `GoMap V`: a list of key/value entries in which every key
  occurs once.  Go leaves the iteration order of a map unspecified; `GoMap.entries`
  is one enumeration, and every statement about the result of a `range` loop is made
  up to permutation.
* `*schema.ResourceData` is the record `ResourceData`; functions that mutate it return
  the new state next to the returned `error` (`none` is Go's `nil`).
* `encoding/json` is embedded at the level of the JSON value tree (`JValue`): the text
  that `json.Marshal` writes and `json.Unmarshal` reads back is not represented, the
  order in which members are written (map keys sorted, struct fields in declaration
  order) and the way members are matched to struct fields are.
* The HTTP collaborators (`Client`), the serialisation of the library type
  `fusionauth.GoogleIdentityProvider` and the refusal of an assignment by the state
  (`Runtime`) are parameters.
-/

namespace Fusionauth

/-! ## Go maps -/

/-- A Go `map[string]V`: entries with pairwise distinct keys. -/
structure GoMap (V : Type) where
  entries : List (String × V)
  nodup : (entries.map Prod.fst).Nodup

namespace GoMap

variable {V W : Type}

/-- The value of `make(map[string]V)`. -/
def empty : GoMap V := ⟨[], List.nodup_nil⟩

/-- The keys of the map, in the enumeration order of `entries`. -/
def keys (m : GoMap V) : List String := m.entries.map Prod.fst

/-- The number of entries, Go's `len(m)`. -/
def len (m : GoMap V) : Nat := m.entries.length

/-- The read `m[k]` with its presence flag. -/
def lookup (m : GoMap V) (k : String) : Option V :=
  (m.entries.find? (fun e => e.1 = k)).map Prod.snd

/-- The assignment `m[k] = v`: an existing entry for `k` is replaced. -/
def insert (m : GoMap V) (k : String) (v : V) : GoMap V :=
  ⟨m.entries.filter (fun e => e.1 ≠ k) ++ [(k, v)], by
    rw [List.map_append, List.nodup_append]
    refine ⟨(List.filter_sublist m.entries).map Prod.fst |>.nodup m.nodup, by simp, ?_⟩
    intro a ha hb
    simp only [List.map_cons, List.map_nil, List.mem_singleton] at hb
    subst hb
    simp only [List.mem_map, List.mem_filter] at ha
    obtain ⟨e, ⟨_, he⟩, rfl⟩ := ha
    simp at he⟩

/-- The same keys with `f` applied to every value. -/
def mapValues (f : V → W) (m : GoMap V) : GoMap W :=
  ⟨m.entries.map (fun e => (e.1, f e.2)), by
    have h : (m.entries.map (fun e => (e.1, f e.2))).map Prod.fst = m.entries.map Prod.fst := by
      simp [List.map_map, Function.comp_def]
    rw [h]; exact m.nodup⟩

end GoMap

/-! ## Values -/

/-- A Go `error`, represented by its message. -/
abbrev GoError := String

/-- A byte slice (`[]byte`): request and response bodies. -/
abbrev Bytes := List Nat

/-- The type `GoogleAppConfig` (lines 16-23). -/
structure GoogleAppConfig where
  ButtonText : String
  ClientID : String
  ClientSecret : String
  Scope : String
  CreateRegistration : Bool
  Enabled : Bool
  deriving DecidableEq, Repr

/-- The zero value of `GoogleAppConfig`. -/
def GoogleAppConfig.zero : GoogleAppConfig := ⟨"", "", "", "", false, false⟩

/-- A generic JSON value as `encoding/json` holds it in an `interface{}`:
`nil`, `bool`, `float64`, `string`, `[]interface{}` or `map[string]interface{}`. -/
inductive JValue where
  | null
  | bool (b : Bool)
  | number (q : Rat)
  | string (s : String)
  | array (xs : List JValue)
  | object (members : List (String × JValue))

/-- The dynamic values found in `ApplicationConfiguration map[string]interface{}`:
a `GoogleAppConfig` put there by `buildGoogleAppConfig`, or a generic value put there
by decoding a response. -/
inductive AnyValue where
  | appConfig (c : GoogleAppConfig)
  | generic (j : JValue)

/-- One element of the `application_configuration` set: the `map[string]interface{}`
with the seven keys of the element schema, each holding a value of the schema's type. -/
structure AppConfigRecord where
  application_id : String
  button_text : String
  client_id : String
  client_secret : String
  create_registration : Bool
  enabled : Bool
  scope : String
  deriving DecidableEq, Repr

/-- What `data.Get(key)` can return (and what `data.Set(key, value)` is given). -/
inductive FieldValue where
  | str (s : String)
  | bool (b : Bool)
  | set (l : List AppConfigRecord)
  | absent
  deriving DecidableEq, Repr

/-- The state `*schema.ResourceData` of one resource: its identifier and the value of
every field of the schema.  `application_configuration` is the content of the
`*schema.Set`, in the order of `set.List()`. -/
structure ResourceData where
  id : String
  application_configuration : List AppConfigRecord
  button_text : String
  client_id : String
  client_secret : String
  debug : Bool
  enabled : Bool
  lambda_reconcile_id : String
  scope : String
  deriving DecidableEq, Repr

namespace ResourceData

/-- The call `data.Id()`. -/
def Id (d : ResourceData) : String := d.id

/-- The call `data.SetId(v)`. -/
def SetId (d : ResourceData) (v : String) : ResourceData := { d with id := v }

/-- The call `data.Get(key)`. -/
def Get (d : ResourceData) (key : String) : FieldValue :=
  if key = "application_configuration" then .set d.application_configuration
  else if key = "button_text" then .str d.button_text
  else if key = "client_id" then .str d.client_id
  else if key = "client_secret" then .str d.client_secret
  else if key = "debug" then .bool d.debug
  else if key = "enabled" then .bool d.enabled
  else if key = "lambda_reconcile_id" then .str d.lambda_reconcile_id
  else if key = "scope" then .str d.scope
  else .absent

end ResourceData

/-! ## Outbound translation -/

/-- The function `buildGoogleAppConfig` (lines 145-167). -/
def buildGoogleAppConfig (key : String) (data : ResourceData) : GoMap AnyValue :=
  let m : GoMap AnyValue := GoMap.empty
  match data.Get key with
  | .set l =>
    l.foldl (fun m ac =>
      let aid := ac.application_id
      let oc : GoogleAppConfig :=
        { ButtonText := ac.button_text
          CreateRegistration := ac.create_registration
          Enabled := ac.enabled
          ClientID := ac.client_id
          ClientSecret := ac.client_secret
          Scope := ac.scope }
      m.insert aid (.appConfig oc)) m
  | _ => m

/-- The override values a record carries next to its `application_id`, as the struct
literal of lines 156-163 builds them. -/
def AppConfigRecord.override (ac : AppConfigRecord) : GoogleAppConfig :=
  { ButtonText := ac.button_text
    CreateRegistration := ac.create_registration
    Enabled := ac.enabled
    ClientID := ac.client_id
    ClientSecret := ac.client_secret
    Scope := ac.scope }

/-- The record of lines 237-245 for the key `k` and the decoded value `v`. -/
def GoogleAppConfig.record (k : String) (v : GoogleAppConfig) : AppConfigRecord :=
  { application_id := k
    button_text := v.ButtonText
    client_id := v.ClientID
    client_secret := v.ClientSecret
    create_registration := v.CreateRegistration
    enabled := v.Enabled
    scope := v.Scope }

/-- The loop of lines 153-165 of `buildGoogleAppConfig` over the elements `l` of the set,
starting from the empty map. -/
def buildLoop (l : List AppConfigRecord) : GoMap AnyValue :=
  l.foldl (fun m ac => m.insert ac.application_id (.appConfig ac.override)) GoMap.empty

/-! ## The JSON codec for the per-application mapping -/

/-- Lexicographic comparison of two keys character by character.  On valid UTF-8 text
this is the byte-wise comparison `<=` of Go strings. -/
def charsLE : List Char → List Char → Bool
  | [], _ => true
  | _ :: _, [] => false
  | a :: as, b :: bs => a.toNat < b.toNat || (a.toNat == b.toNat && charsLE as bs)

/-- The order in which `json.Marshal` writes the members of a Go map: sorted by key. -/
def sortMembers {V : Type} (ms : List (String × V)) : List (String × V) :=
  ms.insertionSort (fun a b => charsLE a.1.data b.1.data = true)

/-- The JSON object `json.Marshal` writes for a `GoogleAppConfig`: the fields in
declaration order under the names of their tags, a field tagged `omitempty` left out when
it is the empty string or `false`. -/
def GoogleAppConfig.marshal (c : GoogleAppConfig) : JValue :=
  .object (
    (if c.ButtonText = "" then [] else [("buttonText", .string c.ButtonText)]) ++
    (if c.ClientID = "" then [] else [("client_id", .string c.ClientID)]) ++
    (if c.ClientSecret = "" then [] else [("client_secret", .string c.ClientSecret)]) ++
    (if c.Scope = "" then [] else [("scope", .string c.Scope)]) ++
    [("createRegistration", .bool c.CreateRegistration)] ++
    (if c.Enabled = false then [] else [("enabled", .bool c.Enabled)]))

/-- The JSON value `json.Marshal` writes for one value of the mapping.  A generic object
is a Go map, so its members are written sorted by key. -/
def AnyValue.marshal : AnyValue → JValue
  | .appConfig c => c.marshal
  | .generic (.object ms) => .object (sortMembers ms)
  | .generic j => j

/-- The JSON value of `json.Marshal(o.ApplicationConfiguration)` (line 231): `null` for a
nil map, otherwise an object with the keys sorted. -/
def marshalApplicationConfiguration : Option (GoMap AnyValue) → JValue
  | none => .null
  | some m => .object (sortMembers (m.entries.map (fun e => (e.1, e.2.marshal))))

/-- Case folding of one character as `encoding/json` applies it to member names: ASCII
letters to upper case, and the two non-ASCII characters that fold to an ASCII letter,
U+017F (long s) and U+212A (Kelvin sign).  Other characters are left alone: none of
them folds to an ASCII character, and the names compared against are ASCII. -/
def foldRune (c : Char) : Char :=
  if 'a' ≤ c ∧ c ≤ 'z' then Char.ofNat (c.toNat - 32)
  else if c = Char.ofNat 0x17F then 'S'
  else if c = Char.ofNat 0x212A then 'K'
  else c

/-- The folded form of a member name; two names match when their folded forms agree. -/
def foldName (s : String) : String := String.mk (s.data.map foldRune)

/-- Decoding of one member `name: v` of a JSON object into a `GoogleAppConfig`: the
field whose tag matches `name` (exactly or up to case folding) is assigned when `v` has the
JSON type of the field; `null`, a value of another type (an `UnmarshalTypeError`, which
the caller drops) and an unknown name leave the struct as it is. -/
def GoogleAppConfig.setMember (c : GoogleAppConfig) (name : String) (v : JValue) :
    GoogleAppConfig :=
  let key := foldName name
  if key = foldName "buttonText" then
    match v with | .string s => { c with ButtonText := s } | _ => c
  else if key = foldName "client_id" then
    match v with | .string s => { c with ClientID := s } | _ => c
  else if key = foldName "client_secret" then
    match v with | .string s => { c with ClientSecret := s } | _ => c
  else if key = foldName "scope" then
    match v with | .string s => { c with Scope := s } | _ => c
  else if key = foldName "createRegistration" then
    match v with | .bool b => { c with CreateRegistration := b } | _ => c
  else if key = foldName "enabled" then
    match v with | .bool b => { c with Enabled := b } | _ => c
  else c

/-- Decoding of one JSON value into a fresh (zero) `GoogleAppConfig` map element: the
members of an object are decoded in the order they are written; any other value leaves
the zero struct. -/
def unmarshalAppConfig : JValue → GoogleAppConfig
  | .object ms => ms.foldl (fun c e => c.setMember e.1 e.2) GoogleAppConfig.zero
  | _ => GoogleAppConfig.zero

/-- The map `m` after `m := make(map[string]GoogleAppConfig)` and `json.Unmarshal(b, &m)`
(lines 232-233): every member of a JSON object becomes an entry, decoded into a fresh
element; `null` sets `m` to nil and any other value is an error that leaves `m` as made,
so in both cases `m` has no entry. -/
def unmarshalAppConfigMap (b : JValue) : GoMap GoogleAppConfig :=
  match b with
  | .object ms => ms.foldl (fun m e => m.insert e.1 (unmarshalAppConfig e.2)) GoMap.empty
  | _ => GoMap.empty

/-! ## Inbound translation -/

/-- Lines 229-246 of `buildResourceFromIDPGoogle`: the mapping is encoded, decoded as
`map[string]GoogleAppConfig`, and one record is appended per entry. -/
def appConfigRecords (appConf : Option (GoMap AnyValue)) : List AppConfigRecord :=
  let b := marshalApplicationConfiguration appConf
  let m := unmarshalAppConfigMap b
  m.entries.map (fun e =>
    let k := e.1
    let v := e.2
    { application_id := k
      button_text := v.ButtonText
      client_id := v.ClientID
      client_secret := v.ClientSecret
      create_registration := v.CreateRegistration
      enabled := v.Enabled
      scope := v.Scope })

/-- A value of the wire mapping as the service sends it: a JSON object in which each
of the six members is present with a value of its type, or absent. -/
structure WireAppConfig where
  buttonText : Option String
  client_id : Option String
  client_secret : Option String
  scope : Option String
  createRegistration : Option Bool
  enabled : Option Bool
  deriving DecidableEq, Repr

/-- The generic JSON object of a `WireAppConfig`, as decoding a response leaves it in the
`map[string]interface{}`. -/
def WireAppConfig.toJSON (w : WireAppConfig) : JValue :=
  .object (
    (match w.buttonText with | some s => [("buttonText", .string s)] | none => []) ++
    (match w.client_id with | some s => [("client_id", .string s)] | none => []) ++
    (match w.client_secret with | some s => [("client_secret", .string s)] | none => []) ++
    (match w.scope with | some s => [("scope", .string s)] | none => []) ++
    (match w.createRegistration with
      | some b => [("createRegistration", .bool b)] | none => []) ++
    (match w.enabled with | some b => [("enabled", .bool b)] | none => []))

/-- The record expected for the key `k` and the wire value `w`: absent members read as
the empty string or `false`. -/
def WireAppConfig.record (k : String) (w : WireAppConfig) : AppConfigRecord :=
  { application_id := k
    button_text := w.buttonText.getD ""
    client_id := w.client_id.getD ""
    client_secret := w.client_secret.getD ""
    create_registration := w.createRegistration.getD false
    enabled := w.enabled.getD false
    scope := w.scope.getD "" }

/-! ## The identity-provider object -/

/-- The library type `fusionauth.Enableable`. -/
structure Enableable where
  Enabled : Bool
  deriving DecidableEq, Repr

/-- The library type `fusionauth.ProviderLambdaConfiguration`. -/
structure ProviderLambdaConfiguration where
  ReconcileId : String
  deriving DecidableEq, Repr

/-- The library constant `fusionauth.IdentityProviderType_Google`. -/
def IdentityProviderType_Google : String := "Google"

/-- The library type `fusionauth.BaseIdentityProvider` (it embeds `Enableable`), with the
fields this file reads or writes.  `ApplicationConfiguration` is `none` for a nil map;
`ProviderType` is the Go field `Type`. -/
structure BaseIdentityProvider extends Enableable where
  ApplicationConfiguration : Option (GoMap AnyValue)
  Debug : Bool
  Id : String
  LambdaConfiguration : ProviderLambdaConfiguration
  ProviderType : String

/-- The library type `fusionauth.GoogleIdentityProvider` (it embeds
`BaseIdentityProvider`). -/
structure GoogleIdentityProvider extends BaseIdentityProvider where
  ButtonText : String
  ClientId : String
  ClientSecret : String
  Scope : String

/-- The zero value of `fusionauth.GoogleIdentityProvider`. -/
def GoogleIdentityProvider.zero : GoogleIdentityProvider :=
  { Enabled := false
    ApplicationConfiguration := none
    Debug := false
    Id := ""
    LambdaConfiguration := { ReconcileId := "" }
    ProviderType := ""
    ButtonText := ""
    ClientId := ""
    ClientSecret := ""
    Scope := "" }

/-- The type `GoogleIdentityProviderBody` (lines 12-14). -/
structure GoogleIdentityProviderBody where
  IdentityProvider : GoogleIdentityProvider

/-- The type assertion `v.(string)` on a value read from the state. -/
def FieldValue.asString : FieldValue → String
  | .str s => s
  | _ => ""

/-- The type assertion `v.(bool)` on a value read from the state. -/
def FieldValue.asBool : FieldValue → Bool
  | .bool b => b
  | _ => false

/-- Modelled from the spec: the helper `buildEnableable` is defined in another file of the
package; the spec describes it as the `Enableable` builder for the enabled flag, so it
reads the boolean stored under `key`. -/
def buildEnableable (key : String) (data : ResourceData) : Enableable :=
  { Enabled := (data.Get key).asBool }

/-- The function `buildIDPGoogle` (lines 124-143). -/
def buildIDPGoogle (data : ResourceData) : GoogleIdentityProviderBody :=
  let o : GoogleIdentityProvider :=
    { ButtonText := (data.Get "button_text").asString
      Debug := (data.Get "debug").asBool
      toEnableable := buildEnableable "enabled" data
      LambdaConfiguration := { ReconcileId := (data.Get "lambda_reconcile_id").asString }
      ProviderType := IdentityProviderType_Google
      Id := ""
      ApplicationConfiguration := none
      ClientId := (data.Get "client_id").asString
      ClientSecret := (data.Get "client_secret").asString
      Scope := (data.Get "scope").asString }
  let ac := buildGoogleAppConfig "application_configuration" data
  let o := { o with ApplicationConfiguration := some ac }
  { IdentityProvider := o }

/-! ## The collaborators -/

/-- The parts of the run that are outside this file:

* `jsonMarshal o` is `json.Marshal(o)` on a request body;
* `jsonUnmarshal bb o` is `json.Unmarshal(bb, &o)`: the returned error and the body `o`
  as the decoder leaves it;
* `setError key value` is the error, if any, with which the assignment
  `data.Set(key, value)` is refused. -/
structure Runtime where
  jsonMarshal : GoogleIdentityProviderBody → Except GoError Bytes
  jsonUnmarshal : Bytes → GoogleIdentityProviderBody → Option GoError × GoogleIdentityProviderBody
  setError : String → FieldValue → Option GoError

/-- Modelled from the spec: the API client and the three helpers of the package that send
a request through it, `createIdentityProvider(body, client) -> bytes | error`,
`readIdentityProvider(id, client) -> bytes | error` and
`updateIdentityProvider(body, id, client) -> bytes | error`.  A client is the answer of
the service to each request. -/
structure Client where
  create : Bytes → Except GoError Bytes
  read : String → Except GoError Bytes
  update : Bytes → String → Except GoError Bytes

/-- The helper `createIdenityProvider(b, client)`. -/
def createIdenityProvider (b : Bytes) (client : Client) : Except GoError Bytes := client.create b

/-- The helper `readIdenityProvider(id, client)`. -/
def readIdenityProvider (id : String) (client : Client) : Except GoError Bytes := client.read id

/-- The helper `updateIdenityProvider(b, id, client)`. -/
def updateIdenityProvider (b : Bytes) (id : String) (client : Client) : Except GoError Bytes :=
  client.update b id

/-- A request sent through the client. -/
inductive Call where
  | create (body : Bytes)
  | read (id : String)
  | update (body : Bytes) (id : String)
  deriving DecidableEq, Repr

/-- The result of one CRUD operation: the returned `error` (`none` for `nil`), the state
as the operation leaves it, and the requests it sent. -/
structure Outcome where
  err : Option GoError
  data : ResourceData
  calls : List Call
  deriving DecidableEq, Repr

namespace ResourceData

/-- The field written by an accepted `data.Set(key, value)`; `none` when the schema has no
field `key` of the type of `value`.  A set keeps one copy of equal elements. -/
def write (d : ResourceData) (key : String) (value : FieldValue) : Option ResourceData :=
  match value with
  | .str s =>
    if key = "button_text" then some { d with button_text := s }
    else if key = "client_id" then some { d with client_id := s }
    else if key = "client_secret" then some { d with client_secret := s }
    else if key = "lambda_reconcile_id" then some { d with lambda_reconcile_id := s }
    else if key = "scope" then some { d with scope := s }
    else none
  | .bool b =>
    if key = "debug" then some { d with debug := b }
    else if key = "enabled" then some { d with enabled := b }
    else none
  | .set l =>
    if key = "application_configuration" then some { d with application_configuration := l.dedup }
    else none
  | .absent => none

/-- The call `data.Set(key, value)`: the returned error and the state after the call.
A refused assignment leaves the state as it was.  The last branch (no field `key` of that
type) is not reached by the assignments of this file. -/
def Set (rt : Runtime) (d : ResourceData) (key : String) (value : FieldValue) :
    Option GoError × ResourceData :=
  match rt.setError key value with
  | some err => (some err, d)
  | none =>
    match d.write key value with
    | some d1 => (none, d1)
    | none => (some ("Invalid address to set: " ++ key), d)

end ResourceData

/-! ## The operations -/

/-- The function `buildResourceFromIDPGoogle` (lines 206-251): the returned error and the
state after the call. -/
def buildResourceFromIDPGoogle (rt : Runtime) (o : GoogleIdentityProvider)
    (data : ResourceData) : Option GoError × ResourceData :=
  match data.Set rt "button_text" (.str o.ButtonText) with
  | (some err, data) => (some ("idpGoogle.button_text: " ++ err), data)
  | (none, data) =>
  match data.Set rt "debug" (.bool o.Debug) with
  | (some err, data) => (some ("idpGoogle.debug: " ++ err), data)
  | (none, data) =>
  match data.Set rt "enabled" (.bool o.Enabled) with
  | (some err, data) => (some ("idpGoogle.enabled: " ++ err), data)
  | (none, data) =>
  match data.Set rt "lambda_reconcile_id" (.str o.LambdaConfiguration.ReconcileId) with
  | (some err, data) => (some ("idpGoogle.lambda_reconcile_id: " ++ err), data)
  | (none, data) =>
  match data.Set rt "client_id" (.str o.ClientId) with
  | (some err, data) => (some ("idpGoogle.client_id: " ++ err), data)
  | (none, data) =>
  match data.Set rt "client_secret" (.str o.ClientSecret) with
  | (some err, data) => (some ("idpGoogle.client_secret: " ++ err), data)
  | (none, data) =>
  match data.Set rt "scope" (.str o.Scope) with
  | (some err, data) => (some ("idpGoogle.scope: " ++ err), data)
  | (none, data) =>
  let ac := appConfigRecords o.ApplicationConfiguration
  match data.Set rt "application_configuration" (.set ac) with
  | (some err, data) => (some ("idpGoogle.application_configuration: " ++ err), data)
  | (none, data) => (none, data)

/-- The function `createIDPGoogle` (lines 169-191). -/
def createIDPGoogle (rt : Runtime) (data : ResourceData) (client : Client) : Outcome :=
  let o := buildIDPGoogle data
  match rt.jsonMarshal o with
  | .error err => { err := some err, data := data, calls := [] }
  | .ok b =>
    match createIdenityProvider b client with
    | .error err => { err := some err, data := data, calls := [.create b] }
    | .ok bb =>
      match rt.jsonUnmarshal bb o with
      | (some err, _) => { err := some err, data := data, calls := [.create b] }
      | (none, o) =>
        { err := none, data := data.SetId o.IdentityProvider.Id, calls := [.create b] }

/-- The function `readIDPGoogle` (lines 193-204). -/
def readIDPGoogle (rt : Runtime) (data : ResourceData) (client : Client) : Outcome :=
  match readIdenityProvider data.Id client with
  | .error err => { err := some err, data := data, calls := [.read data.Id] }
  | .ok b =>
    let ipb : GoogleIdentityProviderBody := { IdentityProvider := GoogleIdentityProvider.zero }
    let ipb := (rt.jsonUnmarshal b ipb).2
    let r := buildResourceFromIDPGoogle rt ipb.IdentityProvider data
    { err := r.1, data := r.2, calls := [.read data.Id] }

/-- The function `updateIDPGoogle` (lines 253-274). -/
def updateIDPGoogle (rt : Runtime) (data : ResourceData) (client : Client) : Outcome :=
  let o := buildIDPGoogle data
  match rt.jsonMarshal o with
  | .error err => { err := some err, data := data, calls := [] }
  | .ok b =>
    match updateIdenityProvider b data.Id client with
    | .error err => { err := some err, data := data, calls := [.update b data.Id] }
    | .ok bb =>
      match rt.jsonUnmarshal bb o with
      | (some err, _) => { err := some err, data := data, calls := [.update b data.Id] }
      | (none, o) =>
        { err := none, data := data.SetId o.IdentityProvider.Id, calls := [.update b data.Id] }

/-- The eight assignments of `buildResourceFromIDPGoogle` in the order of the source:
the name of the field and the value assigned to it. -/
def fieldAssignments (o : GoogleIdentityProvider) : List (String × FieldValue) :=
  [ ("button_text", .str o.ButtonText),
    ("debug", .bool o.Debug),
    ("enabled", .bool o.Enabled),
    ("lambda_reconcile_id", .str o.LambdaConfiguration.ReconcileId),
    ("client_id", .str o.ClientId),
    ("client_secret", .str o.ClientSecret),
    ("scope", .str o.Scope),
    ("application_configuration", .set (appConfigRecords o.ApplicationConfiguration)) ]

/-- The error reported for the field `a.1` when assigning `a.2` to it is refused. -/
def assignmentError (rt : Runtime) (a : String × FieldValue) : Option GoError :=
  (rt.setError a.1 a.2).map (fun msg => "idpGoogle." ++ a.1 ++ ": " ++ msg)

/-! ## The wire format of the request body -/

/-- The member `name` of a JSON object, if it has one. -/
def JValue.member (j : JValue) (name : String) : Option JValue :=
  match j with
  | .object ms => (ms.find? (fun e => e.1 = name)).map Prod.snd
  | _ => none

/-- Modelled from the spec: the JSON tags of the library type
`fusionauth.GoogleIdentityProvider`, which decide what `json.Marshal(o)` writes, are
declared outside this file.  The spec gives the wire format of the request body: the
envelope `{"identityProvider": {...}}` whose inner object carries `buttonText`,
`client_id`, `client_secret`, `scope` and an `applicationConfiguration` object keyed by
application identifier; in its create scenario the empty `client_secret` and `scope` are
not written and the mapping without entries is written as `{}`.  The spec names no member
for the other fields of the object, so none is written here.  The values under
`applicationConfiguration` are written as `marshalApplicationConfiguration` does. -/
def wireBody (o : GoogleIdentityProviderBody) : JValue :=
  .object
    [ ("identityProvider",
        .object (
          (if o.IdentityProvider.ButtonText = "" then []
            else [("buttonText", .string o.IdentityProvider.ButtonText)]) ++
          (if o.IdentityProvider.ClientId = "" then []
            else [("client_id", .string o.IdentityProvider.ClientId)]) ++
          (if o.IdentityProvider.ClientSecret = "" then []
            else [("client_secret", .string o.IdentityProvider.ClientSecret)]) ++
          (if o.IdentityProvider.Scope = "" then []
            else [("scope", .string o.IdentityProvider.Scope)]) ++
          [ ("applicationConfiguration",
              marshalApplicationConfiguration o.IdentityProvider.ApplicationConfiguration) ])) ]

/-- The value written under `identityProvider.applicationConfiguration` in a wire body,
if that member is there. -/
def wireApplicationConfiguration (body : JValue) : Option JValue :=
  (body.member "identityProvider").bind (fun ip => ip.member "applicationConfiguration")

/-! ## The schema -/

/-- The value types of the schema used here. -/
inductive ValueType where
  | TypeBool
  | TypeString
  | TypeSet
  deriving DecidableEq, Repr

/-- The validation functions used here. -/
inductive ValidateFunc where
  | IsUUID
  deriving DecidableEq, Repr

/-- A `schema.Schema` of a scalar field (descriptions are left out), with the zero value
of every attribute the source does not set. -/
structure ElemSchema where
  Typ : ValueType
  Optional : Bool := false
  Required : Bool := false
  Sensitive : Bool := false
  Default : Option Bool := none
  Validate : Option ValidateFunc := none
  deriving DecidableEq, Repr

/-- A `schema.Schema` of a top-level field; `Elem` is the schema of the element resource
of a set. -/
structure Schema extends ElemSchema where
  Elem : List (String × ElemSchema) := []
  deriving DecidableEq, Repr

/-- A `schema.Resource`: its schema map (in source order) and whether it has the
pass-through importer. -/
structure Resource where
  Schema : List (String × Schema)
  ImportStatePassthrough : Bool
  deriving DecidableEq, Repr

/-- The function `newIDPGoogle` (lines 25-122).  The four operations of the resource are
`createIDPGoogle`, `readIDPGoogle`, `updateIDPGoogle` and the shared
`deleteIdentityProvider`. -/
def newIDPGoogle : Resource :=
  { Schema :=
      [ ("application_configuration",
          { Optional := true
            Typ := .TypeSet
            Elem :=
              [ ("application_id",
                  { Typ := .TypeString, Optional := true, Validate := some .IsUUID }),
                ("button_text", { Typ := .TypeString, Optional := true }),
                ("client_id", { Typ := .TypeString, Optional := true }),
                ("client_secret", { Typ := .TypeString, Optional := true, Sensitive := true }),
                ("create_registration",
                  { Typ := .TypeBool, Optional := true, Default := some true }),
                ("enabled", { Typ := .TypeBool, Optional := true, Default := some false }),
                ("scope", { Typ := .TypeString, Optional := true }) ] }),
        ("button_text", { Typ := .TypeString, Required := true }),
        ("client_id", { Typ := .TypeString, Required := true }),
        ("client_secret", { Typ := .TypeString, Optional := true, Sensitive := true }),
        ("debug", { Typ := .TypeBool, Optional := true, Default := some false }),
        ("enabled", { Typ := .TypeBool, Optional := true, Default := some false }),
        ("lambda_reconcile_id", { Typ := .TypeString, Optional := true }),
        ("scope", { Typ := .TypeString, Optional := true }) ]
    ImportStatePassthrough := true }


/-- The schema of the elements of the set field `key` of a resource (empty when the
resource has no such field). -/
def Resource.elemOf (r : Resource) (key : String) : List (String × ElemSchema) :=
  ((r.Schema.find? (fun e => e.1 = key)).map (fun e => e.2.Elem)).getD []

/-! ## Sample inputs -/

/-- An application identifier used in the samples. -/
def sampleAppId : String := "11111111-1111-1111-1111-111111111111"

/-- A second application identifier used in the samples. -/
def otherAppId : String := "22222222-2222-2222-2222-222222222222"

/-- A state with two override records for two applications. -/
def sampleData : ResourceData :=
  { id := "idp-1"
    application_configuration :=
      [ { application_id := sampleAppId, button_text := "Sign in", client_id := "abc123",
          client_secret := "", create_registration := true, enabled := true, scope := "" },
        { application_id := otherAppId, button_text := "", client_id := "",
          client_secret := "s3cret", create_registration := false, enabled := false,
          scope := "email" } ]
    button_text := "Sign in"
    client_id := "abc123"
    client_secret := ""
    debug := false
    enabled := true
    lambda_reconcile_id := ""
    scope := "" }

/-- The state of the create scenario of the spec: `button_text="Sign in"`,
`client_id="abc123"`, no overrides, every other field at its default. -/
def scenarioData : ResourceData :=
  { id := ""
    application_configuration := []
    button_text := "Sign in"
    client_id := "abc123"
    client_secret := ""
    debug := false
    enabled := false
    lambda_reconcile_id := ""
    scope := "" }

/-- A state with two override records for the same application. -/
def duplicateData : ResourceData :=
  { sampleData with
    application_configuration :=
      [ { application_id := sampleAppId, button_text := "first", client_id := "",
          client_secret := "", create_registration := true, enabled := false, scope := "" },
        { application_id := sampleAppId, button_text := "second", client_id := "",
          client_secret := "", create_registration := true, enabled := true, scope := "" } ] }

/-- A typed wire mapping with one entry. -/
def sampleTypedMapping : GoMap GoogleAppConfig :=
  GoMap.empty.insert sampleAppId
    { ButtonText := "Sign in", ClientID := "abc123", ClientSecret := "", Scope := "",
      CreateRegistration := true, Enabled := true }

/-- The wire mapping
`{"11111111-1111-1111-1111-111111111111": {"enabled": true, "createRegistration": false}}`. -/
def sampleWireMapping : GoMap WireAppConfig :=
  GoMap.empty.insert sampleAppId
    { buttonText := none, client_id := none, client_secret := none, scope := none,
      createRegistration := some false, enabled := some true }

/-- A runtime in which serialisation succeeds with the bytes of `{}`, decoding succeeds
and puts the identifier `"generated-id"` in the body, and every assignment is accepted. -/
def sampleRuntime : Runtime :=
  { jsonMarshal := fun _ => .ok [123, 125]
    jsonUnmarshal := fun _ o =>
      (none, { IdentityProvider := { o.IdentityProvider with Id := "generated-id" } })
    setError := fun _ _ => none }

/-- A client whose service answers every request with the same body. -/
def sampleClient : Client :=
  { create := fun _ => .ok [123, 125]
    read := fun _ => .ok [123, 125]
    update := fun _ _ => .ok [123, 125] }

/-! ## Lemmas on Go maps -/

section MapLemmas

variable {V X : Type}

theorem GoMap.entries_insert (m : GoMap V) (k : String) (v : V) :
    (m.insert k v).entries = m.entries.filter (fun e => e.1 ≠ k) ++ [(k, v)] := rfl

theorem GoMap.entries_insert_of_not_mem (m : GoMap V) (k : String) (v : V)
    (h : k ∉ m.keys) : (m.insert k v).entries = m.entries ++ [(k, v)] := by
  rw [GoMap.entries_insert, List.filter_eq_self.2]
  intro e he
  have : e.1 ∈ m.keys := List.mem_map_of_mem _ he
  simp only [ne_eq, decide_not, Bool.not_eq_eq_eq_not, Bool.not_true, decide_eq_false_iff_not]
  rintro rfl
  exact h this

theorem GoMap.lookup_insert_self (m : GoMap V) (k : String) (v : V) :
    (m.insert k v).lookup k = some v := by
  simp only [GoMap.lookup, GoMap.entries_insert, List.find?_append]
  have h : (m.entries.filter (fun e => e.1 ≠ k)).find? (fun e => e.1 = k) = none := by
    rw [List.find?_eq_none]
    intro e he
    simp only [List.mem_filter] at he
    simpa using he.2
  simp [h]

theorem GoMap.lookup_insert_ne (m : GoMap V) (k k1 : String) (v : V) (h : k1 ≠ k) :
    (m.insert k1 v).lookup k = m.lookup k := by
  simp only [GoMap.lookup, GoMap.entries_insert, List.find?_append]
  have h1 : ∀ l : List (String × V),
      (l.filter (fun e => e.1 ≠ k1)).find? (fun e => decide (e.1 = k))
        = l.find? (fun e => decide (e.1 = k)) := by
    intro l
    induction l with
    | nil => rfl
    | cons a t ih =>
      by_cases ha : a.1 = k1
      · have hak : ¬ a.1 = k := by rw [ha]; exact h
        rw [List.filter_cons_of_neg (by simpa using ha),
          List.find?_cons_of_neg _ (by simpa using hak)]
        exact ih
      · rw [List.filter_cons_of_pos (by simpa using ha)]
        by_cases hak : a.1 = k
        · rw [List.find?_cons_of_pos _ (by simpa using hak),
            List.find?_cons_of_pos _ (by simpa using hak)]
        · rw [List.find?_cons_of_neg _ (by simpa using hak),
            List.find?_cons_of_neg _ (by simpa using hak)]
          exact ih
  rw [h1]
  cases hf : m.entries.find? (fun e => decide (e.1 = k)) with
  | none => simp [List.find?_cons, h]
  | some e => simp

theorem GoMap.mem_keys_insert (m : GoMap V) (k k1 : String) (v : V) :
    k ∈ (m.insert k1 v).keys ↔ k = k1 ∨ k ∈ m.keys := by
  simp only [GoMap.keys, GoMap.entries_insert, List.map_append, List.mem_append, List.mem_map,
    List.mem_filter, List.map_cons, List.map_nil, List.mem_singleton]
  constructor
  · rintro (⟨e, ⟨he, _⟩, rfl⟩ | h)
    · exact Or.inr ⟨e, he, rfl⟩
    · exact Or.inl h
  · rintro (h | ⟨e, he, rfl⟩)
    · exact Or.inr h
    · by_cases hk : e.1 = k1
      · exact Or.inr hk
      · exact Or.inl ⟨e, ⟨he, by simpa using hk⟩, rfl⟩

/-- Assigning a list of entries with fresh, pairwise distinct keys appends them. -/
theorem foldl_insert_entries (g : X → String) (h : X → V) (l : List X) (m : GoMap V)
    (hnd : (l.map g).Nodup) (hdisj : ∀ x ∈ l, g x ∉ m.keys) :
    (l.foldl (fun m x => m.insert (g x) (h x)) m).entries
      = m.entries ++ l.map (fun x => (g x, h x)) := by
  induction l generalizing m with
  | nil => simp
  | cons a t ih =>
    simp only [List.map_cons, List.nodup_cons, List.mem_map, not_exists, not_and] at hnd
    simp only [List.foldl_cons]
    rw [ih (m.insert (g a) (h a)) hnd.2]
    · rw [GoMap.entries_insert_of_not_mem m _ _ (hdisj a (List.mem_cons_self _ _))]
      simp
    · intro x hx hmem
      rcases (GoMap.mem_keys_insert m _ _ _).1 hmem with heq | hin
      · exact hnd.1 x hx heq
      · exact hdisj x (List.mem_cons_of_mem _ hx) hin

/-- The entry read back after assigning a list of entries: the last assignment to the key,
or the entry the map had. -/
theorem foldl_insert_lookup (g : X → String) (h : X → V) (l : List X) (m : GoMap V)
    (k : String) :
    (l.foldl (fun m x => m.insert (g x) (h x)) m).lookup k
      = ((l.reverse.find? (fun x => g x = k)).map h).orElse (fun _ => m.lookup k) := by
  induction l using List.reverseRecOn with
  | nil => simp
  | append_singleton t a ih =>
    simp only [List.foldl_append, List.foldl_cons, List.foldl_nil, List.reverse_append,
      List.reverse_cons, List.reverse_nil, List.nil_append, List.singleton_append,
      List.find?_cons]
    by_cases hk : g a = k
    · rw [← hk, GoMap.lookup_insert_self]
      simp
    · rw [GoMap.lookup_insert_ne _ _ _ _ hk, ih]
      simp [hk]

/-- The keys present after assigning a list of entries. -/
theorem foldl_insert_mem_keys (g : X → String) (h : X → V) (l : List X) (m : GoMap V)
    (k : String) :
    k ∈ (l.foldl (fun m x => m.insert (g x) (h x)) m).keys ↔ k ∈ l.map g ∨ k ∈ m.keys := by
  induction l generalizing m with
  | nil => simp
  | cons a t ih =>
    simp only [List.foldl_cons, ih, GoMap.mem_keys_insert, List.map_cons, List.mem_cons]
    tauto

theorem sortMembers_perm (ms : List (String × V)) : (sortMembers ms).Perm ms :=
  List.perm_insertionSort _ ms

end MapLemmas

/-! ## Lemmas on the codec -/

theorem GoogleAppConfig.setMember_buttonText (c : GoogleAppConfig) (s : String) :
    c.setMember "buttonText" (.string s) = { c with ButtonText := s } := by
  simp only [GoogleAppConfig.setMember]
  rw [if_pos trivial]

theorem GoogleAppConfig.setMember_client_id (c : GoogleAppConfig) (s : String) :
    c.setMember "client_id" (.string s) = { c with ClientID := s } := by
  simp only [GoogleAppConfig.setMember]
  rw [if_neg (by decide), if_pos trivial]

theorem GoogleAppConfig.setMember_client_secret (c : GoogleAppConfig) (s : String) :
    c.setMember "client_secret" (.string s) = { c with ClientSecret := s } := by
  simp only [GoogleAppConfig.setMember]
  rw [if_neg (by decide), if_neg (by decide), if_pos trivial]

theorem GoogleAppConfig.setMember_scope (c : GoogleAppConfig) (s : String) :
    c.setMember "scope" (.string s) = { c with Scope := s } := by
  simp only [GoogleAppConfig.setMember]
  rw [if_neg (by decide), if_neg (by decide), if_neg (by decide), if_pos trivial]

theorem GoogleAppConfig.setMember_createRegistration (c : GoogleAppConfig) (b : Bool) :
    c.setMember "createRegistration" (.bool b) = { c with CreateRegistration := b } := by
  simp only [GoogleAppConfig.setMember]
  rw [if_neg (by decide), if_neg (by decide), if_neg (by decide), if_neg (by decide), if_pos trivial]

theorem GoogleAppConfig.setMember_enabled (c : GoogleAppConfig) (b : Bool) :
    c.setMember "enabled" (.bool b) = { c with Enabled := b } := by
  simp only [GoogleAppConfig.setMember]
  rw [if_neg (by decide), if_neg (by decide), if_neg (by decide), if_neg (by decide),
    if_neg (by decide), if_pos trivial]

/-- Decoding the JSON object written for a `GoogleAppConfig` gives the struct back. -/
theorem unmarshalAppConfig_marshal (c : GoogleAppConfig) :
    unmarshalAppConfig c.marshal = c := by
  obtain ⟨bt, ci, cs, sc, cr, en⟩ := c
  simp only [GoogleAppConfig.marshal, unmarshalAppConfig]
  by_cases h1 : bt = "" <;> by_cases h2 : ci = "" <;> by_cases h3 : cs = "" <;>
    by_cases h4 : sc = "" <;> cases en <;>
    simp [h1, h2, h3, h4, GoogleAppConfig.zero, GoogleAppConfig.setMember_buttonText,
      GoogleAppConfig.setMember_client_id, GoogleAppConfig.setMember_client_secret,
      GoogleAppConfig.setMember_scope, GoogleAppConfig.setMember_createRegistration,
      GoogleAppConfig.setMember_enabled]

theorem appConfigRecords_none : appConfigRecords none = [] := rfl

/-- The records of the inbound translation: one per entry of the mapping, carrying the key
and the decoded value. -/
theorem appConfigRecords_some_perm (m : GoMap AnyValue) :
    (appConfigRecords (some m)).Perm
      (m.entries.map (fun e => (unmarshalAppConfig e.2.marshal).record e.1)) := by
  have hp := sortMembers_perm (m.entries.map (fun e => (e.1, e.2.marshal)))
  have hnd : ((sortMembers (m.entries.map (fun e => (e.1, e.2.marshal)))).map Prod.fst).Nodup := by
    refine ((hp.map Prod.fst).nodup_iff).2 ?_
    have h : (m.entries.map (fun e => (e.1, e.2.marshal))).map Prod.fst
        = m.entries.map Prod.fst := by
      simp [List.map_map, Function.comp_def]
    rw [h]
    exact m.nodup
  have he := foldl_insert_entries Prod.fst (fun e : String × JValue => unmarshalAppConfig e.2)
    (sortMembers (m.entries.map (fun e => (e.1, e.2.marshal)))) GoMap.empty hnd
    (by intro x _ hx; simp [GoMap.keys, GoMap.empty] at hx)
  have hrec : appConfigRecords (some m)
      = (sortMembers (m.entries.map (fun e => (e.1, e.2.marshal)))).map
          (fun e => (unmarshalAppConfig e.2).record e.1) := by
    simp only [appConfigRecords, marshalApplicationConfiguration, unmarshalAppConfigMap]
    rw [he]
    simp [GoMap.empty, List.map_map, Function.comp_def, GoogleAppConfig.record]
  rw [hrec]
  have := hp.map (fun e : String × JValue => (unmarshalAppConfig e.2).record e.1)
  simpa [List.map_map, Function.comp_def] using this


theorem unmarshalAppConfig_wire (w : WireAppConfig) (k : String) :
    (unmarshalAppConfig (AnyValue.generic w.toJSON).marshal).record k = w.record k := by
  obtain ⟨a, b, c, d, e, f⟩ := w
  cases a <;> cases b <;> cases c <;> cases d <;> cases e <;> cases f <;> rfl


/-! ## Lemmas on the two translations -/

theorem GoMap.lookup_eq_some_iff {V : Type} (m : GoMap V) (k : String) (v : V) :
    m.lookup k = some v ↔ (k, v) ∈ m.entries := by
  obtain ⟨l, hnd⟩ := m
  simp only [GoMap.lookup]
  induction l with
  | nil => simp
  | cons a t ih =>
    simp only [List.map_cons, List.nodup_cons, List.mem_map, not_exists, not_and] at hnd
    by_cases ha : a.1 = k
    · rw [List.find?_cons_of_pos _ (by simpa using ha)]
      simp only [Option.map_some', Option.some.injEq, List.mem_cons]
      constructor
      · intro h; left; rw [← h, ← ha]
      · rintro (h | h)
        · rw [← h]
        · exact absurd ha (fun hk => hnd.1 (k, v) h hk.symm)
    · rw [List.find?_cons_of_neg _ (by simpa using ha), ih hnd.2]
      simp only [List.mem_cons]
      constructor
      · exact Or.inr
      · rintro (h | h)
        · exact absurd (by rw [← h]) ha
        · exact h

theorem GoMap.lookup_eq_of_perm {V : Type} (m1 m2 : GoMap V) (h : m1.entries.Perm m2.entries)
    (k : String) : m1.lookup k = m2.lookup k := by
  apply Option.ext
  intro v
  simp only [Option.mem_def, GoMap.lookup_eq_some_iff]
  exact h.mem_iff

theorem buildGoogleAppConfig_set (key : String) (data : ResourceData) (l : List AppConfigRecord)
    (h : data.Get key = .set l) : buildGoogleAppConfig key data = buildLoop l := by
  simp only [buildGoogleAppConfig, h]
  rfl

theorem buildGoogleAppConfig_not_set (key : String) (data : ResourceData)
    (h : ∀ l, data.Get key ≠ .set l) : buildGoogleAppConfig key data = GoMap.empty := by
  simp only [buildGoogleAppConfig]

theorem get_application_configuration (data : ResourceData) :
    data.Get "application_configuration" = .set data.application_configuration := rfl

theorem buildLoop_entries (l : List AppConfigRecord)
    (h : (l.map (fun r => r.application_id)).Nodup) :
    (buildLoop l).entries = l.map (fun r => (r.application_id, AnyValue.appConfig r.override)) := by
  have := foldl_insert_entries (fun r : AppConfigRecord => r.application_id)
    (fun r => AnyValue.appConfig r.override) l GoMap.empty h
    (by intro x _ hx; simp [GoMap.keys, GoMap.empty] at hx)
  simpa [buildLoop, GoMap.empty] using this

theorem record_override (r : AppConfigRecord) : r.override.record r.application_id = r := rfl

theorem override_record (k : String) (c : GoogleAppConfig) : (c.record k).override = c := rfl

theorem nodup_of_nodup_ids (l : List AppConfigRecord)
    (h : (l.map (fun r => r.application_id)).Nodup) : l.Nodup :=
  List.Nodup.of_map _ h

/-- The records of the inbound translation carry pairwise distinct keys. -/
theorem appConfigRecords_nodup_ids (o : Option (GoMap AnyValue)) :
    ((appConfigRecords o).map (fun r => r.application_id)).Nodup := by
  cases o with
  | none => simp [appConfigRecords_none]
  | some m =>
    refine (((appConfigRecords_some_perm m).map _).nodup_iff).2 ?_
    have h : (m.entries.map (fun e => (unmarshalAppConfig e.2.marshal).record e.1)).map
        (fun r => r.application_id) = m.entries.map Prod.fst := by
      simp [List.map_map, Function.comp_def, GoogleAppConfig.record]
    rw [h]
    exact m.nodup

/-- Outbound then inbound on records with distinct identifiers. -/
theorem appConfigRecords_buildLoop (l : List AppConfigRecord)
    (h : (l.map (fun r => r.application_id)).Nodup) :
    (appConfigRecords (some (buildLoop l))).Perm l := by
  refine (appConfigRecords_some_perm _).trans ?_
  rw [buildLoop_entries l h]
  simp [List.map_map, Function.comp_def, AnyValue.marshal, unmarshalAppConfig_marshal,
    record_override]

/-- Inbound on a typed mapping. -/
theorem appConfigRecords_typed (m : GoMap GoogleAppConfig) :
    (appConfigRecords (some (m.mapValues AnyValue.appConfig))).Perm
      (m.entries.map (fun e => e.2.record e.1)) := by
  refine (appConfigRecords_some_perm _).trans ?_
  simp [GoMap.mapValues, List.map_map, Function.comp_def, AnyValue.marshal,
    unmarshalAppConfig_marshal]

/-- Inbound then outbound on a typed mapping, for any order of the records. -/
theorem buildLoop_of_perm_records (m : GoMap GoogleAppConfig) (l : List AppConfigRecord)
    (h : l.Perm (appConfigRecords (some (m.mapValues AnyValue.appConfig)))) :
    (buildLoop l).entries.Perm (m.mapValues AnyValue.appConfig).entries := by
  have hnd : (l.map (fun r => r.application_id)).Nodup :=
    ((h.map _).nodup_iff).2 (appConfigRecords_nodup_ids _)
  rw [buildLoop_entries l hnd]
  have h1 := (h.trans (appConfigRecords_typed m)).map
    (fun r : AppConfigRecord => (r.application_id, AnyValue.appConfig r.override))
  refine h1.trans ?_
  rw [List.map_map]
  exact List.Perm.of_eq rfl

/-- The state after `buildResourceFromIDPGoogle` when every assignment is accepted. -/
theorem buildResourceFromIDPGoogle_ok (rt : Runtime) (o : GoogleIdentityProvider)
    (data : ResourceData) (h : ∀ k v, rt.setError k v = none) :
    buildResourceFromIDPGoogle rt o data =
      (none,
        { id := data.id
          application_configuration := (appConfigRecords o.ApplicationConfiguration).dedup
          button_text := o.ButtonText
          client_id := o.ClientId
          client_secret := o.ClientSecret
          debug := o.Debug
          enabled := o.Enabled
          lambda_reconcile_id := o.LambdaConfiguration.ReconcileId
          scope := o.Scope }) := by
  simp [buildResourceFromIDPGoogle, ResourceData.Set, ResourceData.write, h]


theorem GoMap.lookup_mapValues {V W : Type} (f : V → W) (m : GoMap V) (k : String) :
    (m.mapValues f).lookup k = (m.lookup k).map f := by
  simp only [GoMap.lookup, GoMap.mapValues, List.find?_map, Option.map_map]
  rfl

theorem buildLoop_len (l : List AppConfigRecord) :
    (buildLoop l).len = (l.map (fun r => r.application_id)).dedup.length := by
  have hp : (buildLoop l).keys.Perm (l.map (fun r => r.application_id)).dedup := by
    refine (List.perm_ext_iff_of_nodup (buildLoop l).nodup (List.nodup_dedup _)).2 ?_
    intro k
    have := foldl_insert_mem_keys (fun r : AppConfigRecord => r.application_id)
      (fun r => AnyValue.appConfig r.override) l GoMap.empty k
    simp only [List.mem_dedup]
    simpa [buildLoop, GoMap.keys, GoMap.empty] using this
  have := hp.length_eq
  simpa [GoMap.len, GoMap.keys] using this

theorem dedup_length_lt {α : Type} [DecidableEq α] (l : List α) (h : ¬ l.Nodup) :
    l.dedup.length < l.length := by
  rcases Nat.lt_or_ge l.dedup.length l.length with hlt | hge
  · exact hlt
  · have heq : l.dedup.length = l.length := Nat.le_antisymm (List.dedup_sublist l).length_le hge
    exact absurd (List.dedup_eq_self.1 ((List.dedup_sublist l).eq_of_length heq)) h

/-! ## Lemmas on the operations -/

/-- The error of `buildResourceFromIDPGoogle` is the error of the first refused
assignment, tagged with the name of its field. -/
theorem buildResourceFromIDPGoogle_err (rt : Runtime) (o : GoogleIdentityProvider)
    (data : ResourceData) :
    (buildResourceFromIDPGoogle rt o data).1
      = (fieldAssignments o).findSome? (assignmentError rt) := by
  simp only [buildResourceFromIDPGoogle, ResourceData.Set, ResourceData.write, fieldAssignments,
    assignmentError, List.findSome?]
  simp only [String.reduceEq, if_true, if_false]
  cases rt.setError "button_text" (FieldValue.str o.ButtonText) with
  | some e => rfl
  | none =>
  cases rt.setError "debug" (FieldValue.bool o.Debug) with
  | some e => rfl
  | none =>
  cases rt.setError "enabled" (FieldValue.bool o.Enabled) with
  | some e => rfl
  | none =>
  cases rt.setError "lambda_reconcile_id" (FieldValue.str o.LambdaConfiguration.ReconcileId) with
  | some e => rfl
  | none =>
  cases rt.setError "client_id" (FieldValue.str o.ClientId) with
  | some e => rfl
  | none =>
  cases rt.setError "client_secret" (FieldValue.str o.ClientSecret) with
  | some e => rfl
  | none =>
  cases rt.setError "scope" (FieldValue.str o.Scope) with
  | some e => rfl
  | none =>
  cases rt.setError "application_configuration"
      (FieldValue.set (appConfigRecords o.ApplicationConfiguration)) with
  | some e => rfl
  | none => rfl

/-- Populating the state from the object built from that state changes at most the stored
set of override records. -/
theorem buildResourceFromIDPGoogle_echo (rt : Runtime) (data : ResourceData) :
    ∃ ac, (buildResourceFromIDPGoogle rt (buildIDPGoogle data).IdentityProvider data).2
      = { data with application_configuration := ac } := by
  simp only [buildResourceFromIDPGoogle, ResourceData.Set, buildIDPGoogle, ResourceData.Get,
    buildEnableable, FieldValue.asString, FieldValue.asBool, ResourceData.write]
  simp only [String.reduceEq, if_true, if_false]
  cases rt.setError "button_text" (FieldValue.str data.button_text) with
  | some e => exact ⟨_, rfl⟩
  | none =>
  cases rt.setError "debug" (FieldValue.bool data.debug) with
  | some e => exact ⟨_, rfl⟩
  | none =>
  cases rt.setError "enabled" (FieldValue.bool data.enabled) with
  | some e => exact ⟨_, rfl⟩
  | none =>
  cases rt.setError "lambda_reconcile_id" (FieldValue.str data.lambda_reconcile_id) with
  | some e => exact ⟨_, rfl⟩
  | none =>
  cases rt.setError "client_id" (FieldValue.str data.client_id) with
  | some e => exact ⟨_, rfl⟩
  | none =>
  cases rt.setError "client_secret" (FieldValue.str data.client_secret) with
  | some e => exact ⟨_, rfl⟩
  | none =>
  cases rt.setError "scope" (FieldValue.str data.scope) with
  | some e => exact ⟨_, rfl⟩
  | none =>
  cases rt.setError "application_configuration" (FieldValue.set (appConfigRecords
      (some (buildGoogleAppConfig "application_configuration" data)))) with
  | some e => exact ⟨_, rfl⟩
  | none => exact ⟨_, rfl⟩

/-- The wire body always has the member `applicationConfiguration`, holding the encoded
mapping of the object. -/
theorem wireBody_applicationConfiguration (o : GoogleIdentityProviderBody) :
    wireApplicationConfiguration (wireBody o)
      = some (marshalApplicationConfiguration o.IdentityProvider.ApplicationConfiguration) := by
  simp only [wireApplicationConfiguration, wireBody, JValue.member]
  by_cases h1 : o.IdentityProvider.ButtonText = "" <;>
    by_cases h2 : o.IdentityProvider.ClientId = "" <;>
    by_cases h3 : o.IdentityProvider.ClientSecret = "" <;>
    by_cases h4 : o.IdentityProvider.Scope = "" <;>
    simp [h1, h2, h3, h4, List.find?]

/-- The single request of `createIDPGoogle` once the body is serialised. -/
theorem createIDPGoogle_calls (rt : Runtime) (data : ResourceData) (client : Client)
    (b : Bytes) (h : rt.jsonMarshal (buildIDPGoogle data) = .ok b) :
    (createIDPGoogle rt data client).calls = [.create b] := by
  simp only [createIDPGoogle, h]
  cases createIdenityProvider b client with
  | error e0 => rfl
  | ok bb =>
    dsimp only
    rcases rt.jsonUnmarshal bb (buildIDPGoogle data) with ⟨e1, o1⟩
    cases e1 <;> rfl

/-! ## The claims on the two translations -/

/-- C1: for override records with pairwise distinct `application_id` values, the outbound
conversion `buildGoogleAppConfig` followed by the inbound conversion of
`buildResourceFromIDPGoogle` (encode, decode as a map of `GoogleAppConfig`, one record per
key) gives the same records up to order, every record with all seven values; and when
every assignment is accepted this is what `buildResourceFromIDPGoogle` stores. -/
theorem outbound_then_inbound_records (data : ResourceData)
    (h : (data.application_configuration.map (fun r => r.application_id)).Nodup) :
    (appConfigRecords (some (buildGoogleAppConfig "application_configuration" data))).Perm
        data.application_configuration
    ∧ ∀ rt : Runtime, (∀ k v, rt.setError k v = none) →
        (buildResourceFromIDPGoogle rt (buildIDPGoogle data).IdentityProvider
          data).2.application_configuration.Perm data.application_configuration := by
  have hb := buildGoogleAppConfig_set "application_configuration" data _
    (get_application_configuration data)
  have hp := appConfigRecords_buildLoop data.application_configuration h
  rw [← hb] at hp
  refine ⟨hp, ?_⟩
  intro rt hrt
  rw [buildResourceFromIDPGoogle_ok rt _ data hrt]
  have hnd : (appConfigRecords
      (some (buildGoogleAppConfig "application_configuration" data))).Nodup :=
    nodup_of_nodup_ids _ (appConfigRecords_nodup_ids _)
  show (appConfigRecords
    (some (buildGoogleAppConfig "application_configuration" data))).dedup.Perm _
  rw [hnd.dedup]
  exact hp

/-- Witness of C1 on the state `sampleData`. -/
theorem outbound_then_inbound_records_witness :
    (sampleData.application_configuration.map (fun r => r.application_id)).Nodup
    ∧ (appConfigRecords (some (buildGoogleAppConfig "application_configuration"
        sampleData))).Perm sampleData.application_configuration :=
  ⟨by decide, (outbound_then_inbound_records sampleData (by decide)).1⟩

/-- C2: for a wire mapping from application identifier to `GoogleAppConfig`, the inbound
conversion followed by `buildGoogleAppConfig` over the records, in whatever order the map
iteration and the set deliver them, gives the same mapping: the same keys and under each
key the same six values; in particular so does `buildGoogleAppConfig` on the state that
`buildResourceFromIDPGoogle` leaves when every assignment is accepted. -/
theorem inbound_then_outbound_mapping (m : GoMap GoogleAppConfig) (data : ResourceData)
    (l : List AppConfigRecord)
    (h : l.Perm (appConfigRecords (some (m.mapValues AnyValue.appConfig)))) :
    (buildGoogleAppConfig "application_configuration"
        { data with application_configuration := l }).entries.Perm
      (m.mapValues AnyValue.appConfig).entries
    ∧ (buildGoogleAppConfig "application_configuration"
        { data with application_configuration := l }).keys.Perm m.keys
    ∧ (∀ k, (buildGoogleAppConfig "application_configuration"
        { data with application_configuration := l }).lookup k
          = (m.lookup k).map AnyValue.appConfig)
    ∧ (∀ (rt : Runtime) (o : GoogleIdentityProvider), (∀ k v, rt.setError k v = none) →
        o.ApplicationConfiguration = some (m.mapValues AnyValue.appConfig) →
        (buildGoogleAppConfig "application_configuration"
          (buildResourceFromIDPGoogle rt o data).2).entries.Perm
            (m.mapValues AnyValue.appConfig).entries) := by
  have hb := buildGoogleAppConfig_set "application_configuration"
    { data with application_configuration := l } l rfl
  have hp := buildLoop_of_perm_records m l h
  rw [← hb] at hp
  refine ⟨hp, ?_, ?_, ?_⟩
  · have := hp.map Prod.fst
    simpa [GoMap.keys, GoMap.mapValues, List.map_map, Function.comp_def] using this
  · intro k
    rw [GoMap.lookup_eq_of_perm _ _ hp k, GoMap.lookup_mapValues]
  · intro rt o hrt ho
    rw [buildResourceFromIDPGoogle_ok rt o data hrt, ho,
      buildGoogleAppConfig_set "application_configuration" _ _ rfl,
      (nodup_of_nodup_ids _ (appConfigRecords_nodup_ids _)).dedup]
    exact buildLoop_of_perm_records m _ (List.Perm.refl _)

/-- Witness of C2 on the mapping `sampleTypedMapping`, with the records in the order of
the inbound conversion. -/
theorem inbound_then_outbound_mapping_witness :
    (buildGoogleAppConfig "application_configuration"
        { sampleData with application_configuration :=
            appConfigRecords (some (sampleTypedMapping.mapValues AnyValue.appConfig)) }).entries.Perm
      (sampleTypedMapping.mapValues AnyValue.appConfig).entries :=
  (inbound_then_outbound_mapping sampleTypedMapping sampleData _ (List.Perm.refl _)).1


/-- C5: the inbound conversion of `buildResourceFromIDPGoogle` yields one record per key of
the wire mapping, the key as `application_id` and the other six values decoded from the
value under that key; for a wire object whose members are present or absent, an absent
member reads as the empty string or `false`.  The mapping
`{"11111111-1111-1111-1111-111111111111": {"enabled": true, "createRegistration": false}}`
yields exactly one record, enabled, without registration, the four strings empty.  When
every assignment is accepted, these records are the content stored in the state. -/
theorem inbound_one_record_per_key :
    (∀ m : GoMap AnyValue,
      (appConfigRecords (some m)).Perm
          (m.entries.map (fun e => (unmarshalAppConfig e.2.marshal).record e.1))
      ∧ ((appConfigRecords (some m)).map (fun r => r.application_id)).Perm m.keys
      ∧ (appConfigRecords (some m)).length = m.len)
    ∧ (∀ m : GoMap WireAppConfig,
      (appConfigRecords (some (m.mapValues (fun w => AnyValue.generic w.toJSON)))).Perm
        (m.entries.map (fun e => e.2.record e.1)))
    ∧ appConfigRecords (some (sampleWireMapping.mapValues (fun w => AnyValue.generic w.toJSON)))
        = [ { application_id := "11111111-1111-1111-1111-111111111111"
              button_text := ""
              client_id := ""
              client_secret := ""
              create_registration := false
              enabled := true
              scope := "" } ]
    ∧ (∀ (rt : Runtime) (o : GoogleIdentityProvider) (data : ResourceData),
        (∀ k v, rt.setError k v = none) →
        (buildResourceFromIDPGoogle rt o data).2.application_configuration
          = appConfigRecords o.ApplicationConfiguration) := by
  refine ⟨?_, ?_, by decide, ?_⟩
  · intro m
    have hp := appConfigRecords_some_perm m
    refine ⟨hp, ?_, ?_⟩
    · have := hp.map (fun r : AppConfigRecord => r.application_id)
      simpa [GoMap.keys, List.map_map, Function.comp_def, GoogleAppConfig.record] using this
    · simpa [GoMap.len] using hp.length_eq
  · intro m
    refine (appConfigRecords_some_perm _).trans ?_
    simp only [GoMap.mapValues, List.map_map, Function.comp_def, unmarshalAppConfig_wire]
    exact List.Perm.refl _
  · intro rt o data hrt
    rw [buildResourceFromIDPGoogle_ok rt o data hrt]
    exact (nodup_of_nodup_ids _ (appConfigRecords_nodup_ids _)).dedup

/-- Witness of C5: reading the sample wire mapping into `sampleData` with a runtime that
accepts every assignment. -/
theorem inbound_one_record_per_key_witness :
    (∀ k v, sampleRuntime.setError k v = none)
    ∧ (buildResourceFromIDPGoogle sampleRuntime
        { GoogleIdentityProvider.zero with
          ApplicationConfiguration :=
            some (sampleWireMapping.mapValues (fun w => AnyValue.generic w.toJSON)) }
        sampleData).2.application_configuration
      = appConfigRecords
          (some (sampleWireMapping.mapValues (fun w => AnyValue.generic w.toJSON))) :=
  ⟨fun _ _ => rfl, inbound_one_record_per_key.2.2.2 sampleRuntime _ sampleData (fun _ _ => rfl)⟩

/-- C6: `buildGoogleAppConfig` returns a mapping whose keys are exactly the
`application_id` values of the records, each key holding the six override values of a
record with that `application_id`; without records, or when the value under `key` is not
a set, the result is the empty (not nil) mapping, and that mapping is what the body built
by `buildIDPGoogle` carries as `ApplicationConfiguration`.  So the wire body always has
the member `applicationConfiguration`, and without override records it carries
`"applicationConfiguration":{}`: the body of the create scenario of the spec is
`{"identityProvider":{"buttonText":"Sign in","client_id":"abc123","applicationConfiguration":{}}}`,
and whenever the serialiser writes the wire body, the one request of `createIDPGoogle`
is the encoding of a body with that empty object. -/
theorem buildGoogleAppConfig_mapping (key : String) (data : ResourceData) :
    (∀ l, data.Get key = .set l →
      (∀ k, k ∈ (buildGoogleAppConfig key data).keys ↔ k ∈ l.map (fun r => r.application_id))
      ∧ (∀ k v, (buildGoogleAppConfig key data).lookup k = some v →
          ∃ r ∈ l, r.application_id = k ∧
            v = .appConfig
              { ButtonText := r.button_text, ClientID := r.client_id,
                ClientSecret := r.client_secret, Scope := r.scope,
                CreateRegistration := r.create_registration, Enabled := r.enabled }))
    ∧ (data.Get key = .set [] → buildGoogleAppConfig key data = GoMap.empty)
    ∧ ((∀ l, data.Get key ≠ .set l) → buildGoogleAppConfig key data = GoMap.empty)
    ∧ (buildIDPGoogle data).IdentityProvider.ApplicationConfiguration
        = some (buildGoogleAppConfig "application_configuration" data)
    ∧ (data.application_configuration = [] →
        (buildIDPGoogle data).IdentityProvider.ApplicationConfiguration = some GoMap.empty)
    ∧ wireApplicationConfiguration (wireBody (buildIDPGoogle data))
        = some (marshalApplicationConfiguration
            (some (buildGoogleAppConfig "application_configuration" data)))
    ∧ (data.application_configuration = [] →
        wireApplicationConfiguration (wireBody (buildIDPGoogle data)) = some (.object []))
    ∧ wireBody (buildIDPGoogle scenarioData)
        = .object
            [ ("identityProvider",
                .object
                  [ ("buttonText", .string "Sign in"),
                    ("client_id", .string "abc123"),
                    ("applicationConfiguration", .object []) ]) ]
    ∧ (∀ (rt : Runtime) (client : Client) (encode : JValue → Bytes),
        (∀ o, rt.jsonMarshal o = .ok (encode (wireBody o))) →
        data.application_configuration = [] →
        ∃ body, (createIDPGoogle rt data client).calls = [.create (encode body)]
          ∧ wireApplicationConfiguration body = some (.object [])) := by
  have hempty : data.application_configuration = [] →
      buildGoogleAppConfig "application_configuration" data = GoMap.empty := by
    intro hl
    rw [buildGoogleAppConfig_set _ data [] (by rw [get_application_configuration, hl])]
    rfl
  have hwire : data.application_configuration = [] →
      wireApplicationConfiguration (wireBody (buildIDPGoogle data)) = some (.object []) := by
    intro hl
    rw [wireBody_applicationConfiguration]
    show some (marshalApplicationConfiguration
      (some (buildGoogleAppConfig "application_configuration" data))) = _
    rw [hempty hl]
    rfl
  refine ⟨?_, ?_, buildGoogleAppConfig_not_set key data, rfl, ?_,
    wireBody_applicationConfiguration _, hwire, rfl, ?_⟩
  · intro l hl
    rw [buildGoogleAppConfig_set key data l hl]
    constructor
    · intro k
      have := foldl_insert_mem_keys (fun r : AppConfigRecord => r.application_id)
        (fun r => AnyValue.appConfig r.override) l GoMap.empty k
      simpa [buildLoop, GoMap.keys, GoMap.empty] using this
    · intro k v hv
      have := foldl_insert_lookup (fun r : AppConfigRecord => r.application_id)
        (fun r => AnyValue.appConfig r.override) l GoMap.empty k
      rw [show (List.foldl (fun m x => m.insert x.application_id (AnyValue.appConfig x.override))
        GoMap.empty l) = buildLoop l from rfl, hv] at this
      cases hf : l.reverse.find? (fun x => decide (x.application_id = k)) with
      | none =>
        rw [hf] at this
        simp [GoMap.lookup, GoMap.empty] at this
      | some r =>
        rw [hf] at this
        simp only [Option.map_some', Option.orElse] at this
        have hmem := List.mem_of_find?_eq_some hf
        have hk := List.find?_some hf
        refine ⟨r, by simpa using hmem, by simpa using hk, ?_⟩
        injection this with this
  · intro hl
    rw [buildGoogleAppConfig_set key data [] hl]
    rfl
  · intro hl
    show some (buildGoogleAppConfig "application_configuration" data) = _
    rw [hempty hl]
  · intro rt client encode hrt hl
    exact ⟨wireBody (buildIDPGoogle data), createIDPGoogle_calls rt data client _ (hrt _),
      hwire hl⟩

/-- Witness of C6: the keys built from `sampleData`, the empty mapping built from a state
without records, and the wire body of the create scenario, which carries
`"applicationConfiguration":{}`. -/
theorem buildGoogleAppConfig_mapping_witness :
    (sampleAppId ∈ (buildGoogleAppConfig "application_configuration" sampleData).keys
      ↔ sampleAppId ∈ sampleData.application_configuration.map (fun r => r.application_id))
    ∧ (buildIDPGoogle { sampleData with application_configuration := [] }
        ).IdentityProvider.ApplicationConfiguration = some GoMap.empty
    ∧ wireApplicationConfiguration (wireBody (buildIDPGoogle scenarioData)) = some (.object [])
    ∧ (∀ o, sampleRuntime.jsonMarshal o = .ok ((fun _ => [123, 125]) (wireBody o)))
    ∧ ∃ body, (createIDPGoogle sampleRuntime scenarioData sampleClient).calls
          = [.create ((fun _ => [123, 125]) body)]
        ∧ wireApplicationConfiguration body = some (.object []) :=
  ⟨((buildGoogleAppConfig_mapping "application_configuration" sampleData).1 _ rfl).1 sampleAppId,
    (buildGoogleAppConfig_mapping "application_configuration"
      { sampleData with application_configuration := [] }).2.2.2.2.1 rfl,
    (buildGoogleAppConfig_mapping "application_configuration"
      scenarioData).2.2.2.2.2.2.1 rfl,
    fun _ => rfl,
    (buildGoogleAppConfig_mapping "application_configuration"
      scenarioData).2.2.2.2.2.2.2.2 sampleRuntime sampleClient (fun _ => [123, 125])
      (fun _ => rfl) rfl⟩

/-- C10: `buildGoogleAppConfig` neither rejects nor keeps duplicate application
identifiers: the mapping has as many entries as there are distinct `application_id`
values, strictly fewer than records as soon as two records share one, and the entry of an
`application_id` holds the values of the last record of the list that carries it. -/
theorem buildGoogleAppConfig_duplicates (data : ResourceData) :
    (buildGoogleAppConfig "application_configuration" data).len
        = (data.application_configuration.map (fun r => r.application_id)).dedup.length
    ∧ (∀ i j : Fin data.application_configuration.length, i ≠ j →
        (data.application_configuration.get i).application_id
          = (data.application_configuration.get j).application_id →
        (buildGoogleAppConfig "application_configuration" data).len
          < data.application_configuration.length)
    ∧ (∀ k, (buildGoogleAppConfig "application_configuration" data).lookup k
        = (data.application_configuration.reverse.find? (fun r => r.application_id = k)).map
            (fun r => AnyValue.appConfig
              { ButtonText := r.button_text, ClientID := r.client_id,
                ClientSecret := r.client_secret, Scope := r.scope,
                CreateRegistration := r.create_registration, Enabled := r.enabled })) := by
  rw [buildGoogleAppConfig_set "application_configuration" data _
    (get_application_configuration data)]
  refine ⟨buildLoop_len _, ?_, ?_⟩
  · intro i j hij heq
    rw [buildLoop_len]
    have h := dedup_length_lt (data.application_configuration.map (fun r => r.application_id)) ?_
    · simpa using h
    · intro hnd
      have hinj := List.nodup_iff_injective_get.1 hnd
      have := @hinj ⟨i.1, by simp⟩ ⟨j.1, by simp⟩ (by simpa using heq)
      exact hij (Fin.ext (by simpa using this))
  · intro k
    have := foldl_insert_lookup (fun r : AppConfigRecord => r.application_id)
      (fun r => AnyValue.appConfig r.override) data.application_configuration GoMap.empty k
    rw [show (List.foldl (fun m x => m.insert x.application_id (AnyValue.appConfig x.override))
      GoMap.empty data.application_configuration) = buildLoop data.application_configuration
      from rfl] at this
    rw [this]
    cases hf : data.application_configuration.reverse.find?
        (fun x => decide (x.application_id = k)) with
    | none => simp [GoMap.lookup, GoMap.empty]
    | some r => simp [AppConfigRecord.override]

/-- Witness of C10: the two records of `duplicateData` share their `application_id`, the
mapping has one entry. -/
theorem buildGoogleAppConfig_duplicates_witness :
    (buildGoogleAppConfig "application_configuration" duplicateData).len
      < duplicateData.application_configuration.length :=
  (buildGoogleAppConfig_duplicates duplicateData).2.1 ⟨0, by decide⟩ ⟨1, by decide⟩
    (by decide) (by decide)


/-! ## The claims on the operations -/

/-- C3: the object built by `buildIDPGoogle` carries the scalar values of the state, and
populating the state from that same object with `buildResourceFromIDPGoogle` leaves
`button_text`, `client_id`, `client_secret`, `scope`, `debug`, `enabled` and
`lambda_reconcile_id` (and the identifier) with their original values, whether or not an
assignment is refused; when every assignment is accepted no error is returned. -/
theorem scalar_fields_roundtrip (rt : Runtime) (data : ResourceData) :
    ((buildIDPGoogle data).IdentityProvider.ButtonText = data.button_text
      ∧ (buildIDPGoogle data).IdentityProvider.ClientId = data.client_id
      ∧ (buildIDPGoogle data).IdentityProvider.ClientSecret = data.client_secret
      ∧ (buildIDPGoogle data).IdentityProvider.Scope = data.scope
      ∧ (buildIDPGoogle data).IdentityProvider.Debug = data.debug
      ∧ (buildIDPGoogle data).IdentityProvider.Enabled = data.enabled
      ∧ (buildIDPGoogle data).IdentityProvider.LambdaConfiguration.ReconcileId
          = data.lambda_reconcile_id)
    ∧ ((buildResourceFromIDPGoogle rt (buildIDPGoogle data).IdentityProvider data).2.button_text
          = data.button_text
      ∧ (buildResourceFromIDPGoogle rt (buildIDPGoogle data).IdentityProvider data).2.client_id
          = data.client_id
      ∧ (buildResourceFromIDPGoogle rt (buildIDPGoogle data).IdentityProvider data).2.client_secret
          = data.client_secret
      ∧ (buildResourceFromIDPGoogle rt (buildIDPGoogle data).IdentityProvider data).2.scope
          = data.scope
      ∧ (buildResourceFromIDPGoogle rt (buildIDPGoogle data).IdentityProvider data).2.debug
          = data.debug
      ∧ (buildResourceFromIDPGoogle rt (buildIDPGoogle data).IdentityProvider data).2.enabled
          = data.enabled
      ∧ (buildResourceFromIDPGoogle rt (buildIDPGoogle data).IdentityProvider
          data).2.lambda_reconcile_id = data.lambda_reconcile_id
      ∧ (buildResourceFromIDPGoogle rt (buildIDPGoogle data).IdentityProvider data).2.id
          = data.id)
    ∧ ((∀ k v, rt.setError k v = none) →
        (buildResourceFromIDPGoogle rt (buildIDPGoogle data).IdentityProvider data).1 = none) := by
  refine ⟨⟨rfl, rfl, rfl, rfl, rfl, rfl, rfl⟩, ?_, ?_⟩
  · obtain ⟨ac, h⟩ := buildResourceFromIDPGoogle_echo rt data
    rw [h]
    exact ⟨rfl, rfl, rfl, rfl, rfl, rfl, rfl, rfl⟩
  · intro hrt
    rw [buildResourceFromIDPGoogle_ok rt _ data hrt]

/-- Witness of C3: populating `sampleData` from its own object, every assignment
accepted. -/
theorem scalar_fields_roundtrip_witness :
    (∀ k v, sampleRuntime.setError k v = none)
    ∧ (buildResourceFromIDPGoogle sampleRuntime (buildIDPGoogle sampleData).IdentityProvider
        sampleData).1 = none :=
  ⟨fun _ _ => rfl, (scalar_fields_roundtrip sampleRuntime sampleData).2.2 (fun _ _ => rfl)⟩

/-- C4: `createIDPGoogle` returns an error exactly when serialising the request fails, the
create call fails, or the response cannot be parsed, and then it returns that very error
and leaves the state as it was; otherwise it returns no error and the identifier of the
state is the identifier of the parsed response. -/
theorem createIDPGoogle_errors (rt : Runtime) (data : ResourceData) (client : Client) :
    (∀ e, (createIDPGoogle rt data client).err = some e ↔
        rt.jsonMarshal (buildIDPGoogle data) = .error e
        ∨ (∃ b, rt.jsonMarshal (buildIDPGoogle data) = .ok b
            ∧ createIdenityProvider b client = .error e)
        ∨ (∃ b bb, rt.jsonMarshal (buildIDPGoogle data) = .ok b
            ∧ createIdenityProvider b client = .ok bb
            ∧ (rt.jsonUnmarshal bb (buildIDPGoogle data)).1 = some e))
    ∧ ((createIDPGoogle rt data client).err ≠ none →
        (createIDPGoogle rt data client).data = data)
    ∧ ((createIDPGoogle rt data client).err = none ↔
        ∃ b bb, rt.jsonMarshal (buildIDPGoogle data) = .ok b
          ∧ createIdenityProvider b client = .ok bb
          ∧ (rt.jsonUnmarshal bb (buildIDPGoogle data)).1 = none)
    ∧ (∀ b bb, rt.jsonMarshal (buildIDPGoogle data) = .ok b →
        createIdenityProvider b client = .ok bb →
        (rt.jsonUnmarshal bb (buildIDPGoogle data)).1 = none →
        createIDPGoogle rt data client =
          { err := none
            data :=
              { data with id := (rt.jsonUnmarshal bb (buildIDPGoogle data)).2.IdentityProvider.Id }
            calls := [.create b] }) := by
  cases hm : rt.jsonMarshal (buildIDPGoogle data) with
  | error e0 => simp [createIDPGoogle, hm]
  | ok b =>
    cases hc : createIdenityProvider b client with
    | error e0 =>
      simp [createIDPGoogle, hm, hc]
      intro b1 bb1 hb hcb
      subst hb
      rw [hc] at hcb
      cases hcb
    | ok bb =>
      rcases hu : rt.jsonUnmarshal bb (buildIDPGoogle data) with ⟨e1, o1⟩
      cases e1 with
      | none =>
        simp [createIDPGoogle, hm, hc, hu, ResourceData.SetId]
        intro b1 bb1 hb hcb _
        subst hb
        rw [hc] at hcb
        injection hcb with hbb
        subst hbb
        rw [hu]
        exact ⟨rfl, rfl⟩
      | some e1 =>
        simp [createIDPGoogle, hm, hc, hu]
        intro b1 bb1 hb hcb
        subst hb
        rw [hc] at hcb
        injection hcb with hbb
        subst hbb
        rw [hu]
        simp

/-- Witness of C4: creating from `sampleData` against the sample service stores the
identifier of the parsed response. -/
theorem createIDPGoogle_errors_witness :
    createIDPGoogle sampleRuntime sampleData sampleClient =
      { err := none
        data := { sampleData with id := "generated-id" }
        calls := [.create [123, 125]] } :=
  (createIDPGoogle_errors sampleRuntime sampleData sampleClient).2.2.2 [123, 125] [123, 125]
    rfl rfl rfl

/-- C7: `readIDPGoogle` returns the error of the read call unchanged, without touching
the state, when that call fails; otherwise its error is that of the first refused field
assignment, `idpGoogle.<field>: ` followed by the message of the assignment, whatever the
decoding of the response body reported.  So it returns no error exactly when the read
call and every field assignment succeed. -/
theorem readIDPGoogle_errors (rt : Runtime) (data : ResourceData) (client : Client) :
    (∀ e, readIdenityProvider data.Id client = .error e →
        readIDPGoogle rt data client
          = { err := some e, data := data, calls := [.read data.Id] })
    ∧ (∀ b, readIdenityProvider data.Id client = .ok b →
        (readIDPGoogle rt data client).err
          = (fieldAssignments
              (rt.jsonUnmarshal b { IdentityProvider := GoogleIdentityProvider.zero }
                ).2.IdentityProvider).findSome?
              (fun a => (rt.setError a.1 a.2).map (fun msg => "idpGoogle." ++ a.1 ++ ": " ++ msg)))
    ∧ (∀ b, readIdenityProvider data.Id client = .ok b →
        (∀ a ∈ fieldAssignments
              (rt.jsonUnmarshal b { IdentityProvider := GoogleIdentityProvider.zero }
                ).2.IdentityProvider, rt.setError a.1 a.2 = none) →
        (readIDPGoogle rt data client).err = none)
    ∧ ((readIDPGoogle rt data client).err = none ↔
        ∃ b, readIdenityProvider data.Id client = .ok b
          ∧ ∀ a ∈ fieldAssignments
              (rt.jsonUnmarshal b { IdentityProvider := GoogleIdentityProvider.zero }
                ).2.IdentityProvider, rt.setError a.1 a.2 = none) := by
  have key : ∀ b, readIdenityProvider data.Id client = .ok b →
      (readIDPGoogle rt data client).err
        = (fieldAssignments
            (rt.jsonUnmarshal b { IdentityProvider := GoogleIdentityProvider.zero }
              ).2.IdentityProvider).findSome? (assignmentError rt) := by
    intro b hb
    simp only [readIDPGoogle, hb]
    exact buildResourceFromIDPGoogle_err rt _ data
  have hnone : ∀ l : List (String × FieldValue),
      l.findSome? (assignmentError rt) = none ↔ ∀ a ∈ l, rt.setError a.1 a.2 = none := by
    intro l
    simp [List.findSome?_eq_none_iff, assignmentError]
  refine ⟨?_, key, ?_, ?_⟩
  · intro e he
    simp only [readIDPGoogle, he]
  · intro b hb hall
    rw [key b hb]
    exact (hnone _).2 hall
  · cases hr : readIdenityProvider data.Id client with
    | error e => simp [readIDPGoogle, hr]
    | ok b =>
      rw [key b hr, hnone]
      simp

/-- Witness of C7: reading `sampleData` from the sample service, every assignment
accepted. -/
theorem readIDPGoogle_errors_witness :
    readIdenityProvider sampleData.Id sampleClient = .ok [123, 125]
    ∧ (readIDPGoogle sampleRuntime sampleData sampleClient).err = none :=
  ⟨rfl, (readIDPGoogle_errors sampleRuntime sampleData sampleClient).2.2.1 [123, 125] rfl
    (fun _ _ => rfl)⟩

/-- C9: `updateIDPGoogle` serialises the same body `buildIDPGoogle` builds for
`createIDPGoogle`, sends it in a single update call addressed to the current identifier of
the state, and on success stores the identifier of the parsed response; when
serialisation, the update call or the parsing fails it returns that very error and
leaves the state as it was. -/
theorem updateIDPGoogle_behaviour (rt : Runtime) (data : ResourceData) (client : Client) :
    (∀ e, rt.jsonMarshal (buildIDPGoogle data) = .error e →
        updateIDPGoogle rt data client = { err := some e, data := data, calls := [] }
        ∧ createIDPGoogle rt data client = { err := some e, data := data, calls := [] })
    ∧ (∀ b, rt.jsonMarshal (buildIDPGoogle data) = .ok b →
        (updateIDPGoogle rt data client).calls = [.update b data.Id]
        ∧ (createIDPGoogle rt data client).calls = [.create b])
    ∧ (∀ b e, rt.jsonMarshal (buildIDPGoogle data) = .ok b →
        updateIdenityProvider b data.Id client = .error e →
        updateIDPGoogle rt data client
          = { err := some e, data := data, calls := [.update b data.Id] })
    ∧ (∀ b bb e, rt.jsonMarshal (buildIDPGoogle data) = .ok b →
        updateIdenityProvider b data.Id client = .ok bb →
        (rt.jsonUnmarshal bb (buildIDPGoogle data)).1 = some e →
        updateIDPGoogle rt data client
          = { err := some e, data := data, calls := [.update b data.Id] })
    ∧ (∀ b bb, rt.jsonMarshal (buildIDPGoogle data) = .ok b →
        updateIdenityProvider b data.Id client = .ok bb →
        (rt.jsonUnmarshal bb (buildIDPGoogle data)).1 = none →
        updateIDPGoogle rt data client =
          { err := none
            data :=
              { data with id := (rt.jsonUnmarshal bb (buildIDPGoogle data)).2.IdentityProvider.Id }
            calls := [.update b data.Id] })
    ∧ ((updateIDPGoogle rt data client).err ≠ none →
        (updateIDPGoogle rt data client).data = data) := by
  refine ⟨?_, ?_, ?_, ?_, ?_, ?_⟩
  · intro e hm
    simp [updateIDPGoogle, createIDPGoogle, hm]
  · intro b hm
    constructor
    · simp only [updateIDPGoogle, hm]
      cases updateIdenityProvider b data.Id client with
      | error e0 => rfl
      | ok bb =>
        dsimp only
        rcases rt.jsonUnmarshal bb (buildIDPGoogle data) with ⟨e1, o1⟩
        cases e1 <;> rfl
    · simp only [createIDPGoogle, hm]
      cases createIdenityProvider b client with
      | error e0 => rfl
      | ok bb =>
        dsimp only
        rcases rt.jsonUnmarshal bb (buildIDPGoogle data) with ⟨e1, o1⟩
        cases e1 <;> rfl
  · intro b e hm hc
    simp [updateIDPGoogle, hm, hc]
  · intro b bb e hm hc hu
    rcases hu1 : rt.jsonUnmarshal bb (buildIDPGoogle data) with ⟨e1, o1⟩
    rw [hu1] at hu
    simp only at hu
    subst hu
    simp [updateIDPGoogle, hm, hc, hu1]
  · intro b bb hm hc hu
    rcases hu1 : rt.jsonUnmarshal bb (buildIDPGoogle data) with ⟨e1, o1⟩
    rw [hu1] at hu
    simp only at hu
    subst hu
    simp [updateIDPGoogle, hm, hc, hu1, ResourceData.SetId]
  · cases hm : rt.jsonMarshal (buildIDPGoogle data) with
    | error e0 => simp [updateIDPGoogle, hm]
    | ok b =>
      cases hc : updateIdenityProvider b data.Id client with
      | error e0 => simp [updateIDPGoogle, hm, hc]
      | ok bb =>
        rcases hu : rt.jsonUnmarshal bb (buildIDPGoogle data) with ⟨e1, o1⟩
        cases e1 with
        | none => simp [updateIDPGoogle, hm, hc, hu]
        | some e1 => simp [updateIDPGoogle, hm, hc, hu]

/-- Witness of C9: updating `sampleData` against the sample service. -/
theorem updateIDPGoogle_behaviour_witness :
    updateIDPGoogle sampleRuntime sampleData sampleClient =
      { err := none
        data := { sampleData with id := "generated-id" }
        calls := [.update [123, 125] "idp-1"] } :=
  (updateIDPGoogle_behaviour sampleRuntime sampleData sampleClient).2.2.2.2.1 [123, 125]
    [123, 125] rfl rfl rfl


/-! ## The claim on the schema -/

/-- C8 as stated fails: inside the `application_configuration` records, `application_id`
is declared `Optional`, not `Required`, so the required fields of a record are not exactly
`application_id`. -/
theorem application_id_is_optional :
    (newIDPGoogle.elemOf "application_configuration").find? (fun e => e.1 = "application_id")
        = some ("application_id",
            { Typ := .TypeString, Optional := true, Required := false,
              Validate := some .IsUUID })
    ∧ ¬ (∀ e ∈ newIDPGoogle.elemOf "application_configuration",
          (e.2.Required = true ↔ e.1 = "application_id")) := by
  decide

/-- C8, amended: in the schema returned by `newIDPGoogle` the required fields are exactly
the top-level `button_text` and `client_id`; every other top-level field is optional, and
so is every field of an `application_configuration` record, `application_id` included. -/
theorem required_fields :
    (∀ e ∈ newIDPGoogle.Schema,
        (e.2.Required = true ↔ e.1 = "button_text" ∨ e.1 = "client_id"))
    ∧ (∀ e ∈ newIDPGoogle.Schema,
        ¬ (e.1 = "button_text" ∨ e.1 = "client_id") →
          e.2.Optional = true ∧ e.2.Required = false)
    ∧ (∀ e ∈ newIDPGoogle.elemOf "application_configuration",
        e.2.Optional = true ∧ e.2.Required = false)
    ∧ newIDPGoogle.Schema.map Prod.fst
        = ["application_configuration", "button_text", "client_id", "client_secret", "debug",
            "enabled", "lambda_reconcile_id", "scope"]
    ∧ (newIDPGoogle.elemOf "application_configuration").map Prod.fst
        = ["application_id", "button_text", "client_id", "client_secret",
            "create_registration", "enabled", "scope"] := by
  decide

/-- Witness of C8: the top-level `scope` is not one of the two required fields. -/
theorem required_fields_witness :
    (("scope", { Typ := .TypeString, Optional := true }) : String × Schema) ∈ newIDPGoogle.Schema
    ∧ ((({ Typ := .TypeString, Optional := true } : Schema).Optional = true)
      ∧ (({ Typ := .TypeString, Optional := true } : Schema).Required = false)) :=
  ⟨by decide, required_fields.2.1 ("scope", { Typ := .TypeString, Optional := true })
    (by decide) (by decide)⟩

end Fusionauth
